import Mathlib

/-!
Verification development for the NIXL GUSLI block-storage backend plugin
(`src/plugins/gusli/gusli_backend.{h,cpp}` and the revised engine variant).

The embedding models the request classifier (`nixlGusliEngine::prepXfer`),
the single-device request builders (`set1Buf`, `setBufs`), the compound
request poll loop (`nixlGusliBackendReqHCompound::pollStatus`), the gusli
error-code conversions, and the device-table close paths (`bdevClose` in the
revised engine, `_close` in the older one).

C++ undefined behaviour (out-of-bounds descriptor access, dereferencing the
end iterator of the device hash, dereferencing a null `opt_args`) is made
explicit as a `ub` outcome tagged with its source.  Writes into the caller's
scatter-gather buffer (`localList[0]`'s memory) are recorded as an ordered
trace of write events, so "no bytes written" is expressible.
-/

namespace Gusli

/-- Transfer operation kind (`nixl_xfer_op_t`, mapped to `gusli::G_READ` /
`gusli::G_WRITE` in the request constructor). -/
inductive XferOp
  | read
  | write
deriving DecidableEq, Repr

/-- Memory class of a descriptor list (`nixl_mem_t`); only `DRAM_SEG` and
`BLK_SEG` matter to this backend, all other framework classes are collapsed
into `otherSeg`. -/
inductive MemType
  | dram
  | blk
  | otherSeg
deriving DecidableEq, Repr

/-- One descriptor of a `nixl_meta_dlist_t`: device id, start address
(process address for local, device byte offset for remote) and byte length. -/
structure Desc where
  devId : Nat
  addr : Nat
  len : Nat
deriving DecidableEq, Repr

/-- A descriptor list (`nixl_meta_dlist_t`): declared memory class
(`getType()`) plus the ordered descriptors (`descCount()`, `operator[]`). -/
structure Dlist where
  type : MemType
  descs : List Desc
deriving DecidableEq, Repr

/-- NIXL status codes returned by the backend (the subset this plugin
produces). -/
inductive NixlStatus
  | success
  | inProg
  | errInvalidParam
  | errBackend
  | errNotFound
  | errNotSupported
deriving DecidableEq, Repr

/-- gusli io error codes (`gusli::io_error_codes`): the three codes the
plugin recognises plus an opaque `eOther` for every unrecognised native
code. -/
inductive IoErr
  | eOk
  | eInTransfer
  | eInvalParams
  | eOther (code : Nat)
deriving DecidableEq, Repr

/-- gusli connection return codes (`gusli::connect_rv`). -/
inductive ConnectRv
  | cOk
  | cNoDevice
  | cWrongArguments
  | cOther (code : Nat)
deriving DecidableEq, Repr

/-- `conErrConv` (revised engine) / `__err_conv` (older engine): map a gusli
connection code to a NIXL status. -/
def conErrConv : ConnectRv → NixlStatus
  | .cOk => .success
  | .cNoDevice => .errNotFound
  | .cWrongArguments => .errInvalidParam
  | .cOther _ => .errBackend

/-- One entry of the in-place scatter-gather map (`gusli::io_map_t`):
local pointer, byte length, device byte offset (`offset_lba_bytes`). -/
structure SgEntry where
  ptr : Nat
  byteLen : Nat
  offsetLbaBytes : Nat
deriving DecidableEq, Repr

/-- A write event into `localList[0]`'s memory region: either the
`n_entries` header of `gusli::io_multi_map_t` or one `entries[idx]` slot. -/
inductive SgWrite
  | header (nEntries : Nat)
  | entry (idx : Nat) (e : SgEntry)
deriving DecidableEq, Repr

/-- Modelled from the spec: `gusli::io_multi_map_t::my_size()` lives in the
external `gusli_client_api.hpp`, which is not part of this repository's
sources.  Per the spec the map is a `u32` entry count followed by fixed-size
`{ptr, byteLength, deviceByteOffset}` entries (three 8-byte fields), so the
header is padded to the 8-byte entry alignment: `8 + 24 * nEntries` bytes. -/
def mySize (nEntries : Nat) : Nat := 8 + 24 * nEntries

/-- The scatter-gather map content as written by `setBufs`. -/
structure SgMap where
  nEntries : Nat
  entries : List SgEntry
deriving DecidableEq, Repr

/-- One child of a compound request, as built by
`nixlGusliBackendReqHCompound::addSubIO` → `set1Buf`: the op, the resolved
gusli device descriptor (`gid`), and the child's own descriptor pair. -/
structure Child where
  op : XferOp
  gid : Int
  lbuf : Desc
  rbuf : Desc
deriving DecidableEq, Repr

/-- The backend request handle produced by `prepXfer`:
`single1` = `nixlGusliBackendReqHSingleBdev` via `set1Buf` (one range),
`singleSgl` = `nixlGusliBackendReqHSingleBdev` via `setBufs` (multi-range,
one device, scatter-gather map), `compound` = `nixlGusliBackendReqHCompound`
with its ordered children. -/
inductive Handle
  | single1 (op : XferOp) (gid : Int) (lbuf rbuf : Desc)
  | singleSgl (op : XferOp) (gid : Int) (map : SgMap)
  | compound (children : List Child)
deriving DecidableEq, Repr

/-- Where a C++ undefined behaviour arises in `prepXfer`:
`oobDesc` = out-of-bounds `operator[]` on a descriptor list,
`missingDev` = dereferencing the end iterator of `bdevs_` in `getGidOfBDev`,
`nullOpt` = dereferencing a null `opt_args` in the final trace log. -/
inductive UBKind
  | oobDesc
  | missingDev
  | nullOpt
deriving DecidableEq, Repr

/-- Outcome of `prepXfer`: a built handle, a NIXL error status, or C++
undefined behaviour. -/
inductive PrepResult
  | ok (h : Handle)
  | err (s : NixlStatus)
  | ub (k : UBKind)
deriving DecidableEq, Repr

/-- Does `pat` occur starting at the head of `hay`? (helper for the
`std::string::find` model). -/
def matchesAt : List Char → List Char → Bool
  | [], _ => true
  | _ :: _, [] => false
  | p :: ps, c :: cs => p == c && matchesAt ps cs

/-- `hay.find(pat) != npos`: does `pat` occur as a contiguous substring of
`hay`? -/
def listHasSub (pat : List Char) : List Char → Bool
  | [] => pat.isEmpty
  | c :: rest => matchesAt pat (c :: rest) || listHasSub pat rest

/-- The option substring `prepXfer` looks for in
`opt_args->customParam`. -/
def sglToken : List Char := ['-', 's', 'g', 'l']

/-- `has_sgl_mem = (opt_args && opt_args->customParam.find("-sgl") !=
std::string::npos)`; a null `opt_args` short-circuits to false. -/
def hasSglFlag (optArgs : Option (List Char)) : Bool :=
  match optArgs with
  | none => false
  | some s => listHasSub sglToken s

/-- `nixlGusliEngine::getGidOfBDev`: `bdevs_.find(devId)->second` — the
source dereferences the iterator without checking for `end()`, so a missing
device id is undefined behaviour, modelled as `none`. -/
def getGidOfBDev (bdevs : Nat → Option Int) (devId : Nat) : Option Int :=
  bdevs devId

/-- Write events for the `entries[]` slots of the scatter-gather map, in
the order the `setBufs` loop emits them (`entries[i-1]` for `i = 1..N-1`). -/
def entryWrites (es : List SgEntry) : List SgWrite :=
  es.enum.map (fun p => SgWrite.entry p.1 p.2)

/-- `nixlGusliBackendReqHSingleBdev::setBufs`: place the scatter-gather map
in `local[0]`'s memory.  The source writes `mio->n_entries = nRanges - 1`
first, then checks `mio->my_size() > local[0].len` (returning
`NIXL_ERR_INVALID_PARAM`), then fills `entries[i-1]` from
`local[i]`/`remote[i]` for `i = 1..nRanges-1` and calls `init_multi`.
Returns the outcome together with the ordered trace of writes into
`local[0]`'s memory. -/
def setBufs (op : XferOp) (gid : Int) (localD remoteD : List Desc) :
    PrepResult × List SgWrite :=
  let nRanges := remoteD.length
  match localD, remoteD with
  | l0 :: lrest, _ :: rrest =>
    let writes := [SgWrite.header (nRanges - 1)]
    if mySize (nRanges - 1) > l0.len then
      (.err .errInvalidParam, writes)
    else
      let es := (lrest.zip rrest).map
        (fun p => SgEntry.mk p.1.addr p.1.len p.2.addr)
      (.ok (.singleSgl op gid ⟨nRanges - 1, es⟩), writes ++ entryWrites es)
  | _, _ => (.ub .oobDesc, [])

/-- The loop of `prepXfer`'s compound branch: for each remaining descriptor
pair call `getGidOfBDev(remote[i].devId)` and `addSubIO`; a missing device
id is undefined behaviour at that iteration. -/
def buildKids (op : XferOp) (bdevs : Nat → Option Int) :
    List (Desc × Desc) → Except UBKind (List Child)
  | [] => .ok []
  | p :: rest =>
    match getGidOfBDev bdevs p.2.devId with
    | none => .error .missingDev
    | some g =>
      match buildKids op bdevs rest with
      | .error k => .error k
      | .ok ks => .ok (Child.mk op g p.1 p.2 :: ks)

/-- The final `__LOG_IO` of `prepXfer` (revised engine) evaluates
`opt_args->customParam.c_str()` unconditionally: with a null `opt_args`
this dereferences a null pointer.  Only on a non-null `opt_args` does the
function return its built handle. -/
def finishLog (optArgs : Option (List Char)) (r : PrepResult)
    (w : List SgWrite) : PrepResult × List SgWrite :=
  match optArgs with
  | none => (.ub .nullOpt, w)
  | some _ => (r, w)

/-- `nixlGusliEngine::prepXfer` (revised engine, the file with
`nixlGusliBackendReqHSingleBdev`/`nixlGusliBackendReqHCompound`): validate
memory classes and count equality, resolve `remote[0]`'s device, classify
into single-range / single-device-scatter-gather / compound, and run the
final trace log.  Returns the outcome and the ordered trace of writes into
`localList[0]`'s memory region. -/
def prepXfer (op : XferOp) (lcl rmt : Dlist) (optArgs : Option (List Char))
    (bdevs : Nat → Option Int) : PrepResult × List SgWrite :=
  if lcl.type ≠ MemType.dram then (.err .errInvalidParam, [])
  else if rmt.type ≠ MemType.blk then (.err .errInvalidParam, [])
  else if lcl.descs.length ≠ rmt.descs.length then (.err .errInvalidParam, [])
  else
    match rmt.descs with
    | [] => (.ub .oobDesc, [])
    | r0 :: rrest =>
      match getGidOfBDev bdevs r0.devId with
      | none => (.ub .missingDev, [])
      | some gid =>
        let nRanges := rmt.descs.length
        let hasSgl := hasSglFlag optArgs
        let entire1 := rrest.all (fun d => d.devId == r0.devId)
        let canMulti := entire1 && hasSgl
        if nRanges == 1 then
          match lcl.descs with
          | [] => (.ub .oobDesc, [])
          | l0 :: _ => finishLog optArgs (.ok (.single1 op gid l0 r0)) []
        else if canMulti then
          match setBufs op gid lcl.descs rmt.descs with
          | (.ok h, w) => finishLog optArgs (.ok h) w
          | (r, w) => (r, w)
        else
          let i0 := if hasSgl then 1 else 0
          match buildKids op bdevs
              ((lcl.descs.drop i0).zip (rmt.descs.drop i0)) with
          | .error k => (.ub k, [])
          | .ok kids => finishLog optArgs (.ok (.compound kids)) []

/-- `nixlGusliBackendReqHbase::getCompStatus`: map the cached gusli io error
code to a NIXL status; any unrecognised code is logged and reported as
`NIXL_ERR_BACKEND`. -/
def getCompStatus : IoErr → NixlStatus
  | .eOk => .success
  | .eInTransfer => .inProg
  | .eInvalParams => .errInvalidParam
  | .eOther _ => .errBackend

/-- State of a `nixlGusliBackendReqHCompound` at one poll instant: the
cached aggregate (`pollableAsyncRV`) and each child's current io error code
(what that child's `pollStatus` reads). -/
structure CompoundSt where
  aggregate : IoErr
  children : List IoErr
deriving DecidableEq, Repr

/-- First loop of `pollStatus`: poll children in order, stopping at the
first one still in progress.  Returns whether one was found and how many
child polls were issued. -/
def loop1 : List IoErr → Bool × Nat
  | [] => (false, 0)
  | c :: rest =>
    if getCompStatus c == NixlStatus.inProg then (true, 1)
    else
      let r := loop1 rest
      (r.1, r.2 + 1)

/-- Second loop of `pollStatus`: poll children in order, stopping at the
first one whose status is not success.  Returns that child's io error code
(if any) and how many child polls were issued. -/
def loop2 : List IoErr → Option IoErr × Nat
  | [] => (none, 0)
  | c :: rest =>
    if getCompStatus c != NixlStatus.success then (some c, 1)
    else
      let r := loop2 rest
      (r.1, r.2 + 1)

/-- `nixlGusliBackendReqHCompound::pollStatus`: short-circuit to the cached
aggregate once it is no longer `E_IN_TRANSFER`; otherwise poll every child
in order and return `NIXL_IN_PROG` if any is still in flight; once all are
terminal, the first non-success child's code is propagated into the
aggregate, else the aggregate becomes `E_OK`.  Returns the NIXL status, the
new state, and the number of child `pollStatus` invocations. -/
def pollStatusC (st : CompoundSt) : NixlStatus × CompoundSt × Nat :=
  if st.aggregate ≠ IoErr.eInTransfer then (getCompStatus st.aggregate, st, 0)
  else
    let f := loop1 st.children
    if f.1 then (.inProg, st, f.2)
    else
      let r := loop2 st.children
      match r.1 with
      | some c => (getCompStatus c, ⟨c, st.children⟩, f.2 + r.2)
      | none => (.success, ⟨.eOk, st.children⟩, f.2 + r.2)

/-- `nixlGusliEngine::bdevClose` (revised engine): decrement the refcount;
if still positive keep the entry; otherwise call the native disconnect
(its result is the `rv` parameter) — on failure re-increment the refcount
and return the mapped error so a later close can retry, on success erase
the entry.  A device id absent from the table logs and returns success. -/
def bdevClose (rv : ConnectRv) (tbl : Nat → Option Int) (devId : Nat) :
    NixlStatus × (Nat → Option Int) :=
  match tbl devId with
  | none => (.success, tbl)
  | some rc =>
    let rc2 := rc - 1
    if rc2 > 0 then
      (.success, fun x => if x = devId then some rc2 else tbl x)
    else if rv ≠ ConnectRv.cOk then
      (conErrConv rv, fun x => if x = devId then some (rc2 + 1) else tbl x)
    else
      (.success, fun x => if x = devId then none else tbl x)

/-- `nixlGusliEngine::_close` (older engine variant,
`gusli_backend.cpp`): identical to `bdevClose` except that a failed native
disconnect returns the mapped error with the refcount already decremented
and the entry neither restored nor erased. -/
def oldClose (rv : ConnectRv) (tbl : Nat → Option Int) (devId : Nat) :
    NixlStatus × (Nat → Option Int) :=
  match tbl devId with
  | none => (.success, tbl)
  | some rc =>
    let rc2 := rc - 1
    if rc2 > 0 then
      (.success, fun x => if x = devId then some rc2 else tbl x)
    else if rv ≠ ConnectRv.cOk then
      (conErrConv rv, fun x => if x = devId then some rc2 else tbl x)
    else
      (.success, fun x => if x = devId then none else tbl x)

/-! ## Helper lemmas about the compound poll loops -/

theorem loop1_fst (cs : List IoErr) :
    (loop1 cs).1 = cs.any (fun c => getCompStatus c == NixlStatus.inProg) := by
  induction cs with
  | nil => rfl
  | cons c rest ih =>
    by_cases h : (getCompStatus c == NixlStatus.inProg) = true
    · simp [loop1, h]
    · simp only [Bool.not_eq_true] at h
      simp [loop1, h, ih]

theorem loop2_fst (cs : List IoErr) :
    (loop2 cs).1 = cs.find? (fun c => getCompStatus c != NixlStatus.success) := by
  induction cs with
  | nil => rfl
  | cons c rest ih =>
    by_cases h : (getCompStatus c != NixlStatus.success) = true
    · simp [loop2, h, List.find?_cons_of_pos]
    · simp only [Bool.not_eq_true] at h
      simp [loop2, h, ih, List.find?_cons_of_neg]

theorem notInTransfer_of_status_ne_inProg (c : IoErr)
    (h : getCompStatus c ≠ NixlStatus.inProg) : c ≠ IoErr.eInTransfer := by
  cases c <;> simp_all [getCompStatus]

theorem pollStatusC_resolved (st : CompoundSt)
    (h : st.aggregate ≠ IoErr.eInTransfer) :
    pollStatusC st = (getCompStatus st.aggregate, st, 0) := by
  rw [pollStatusC]
  simp [h]

theorem pollStatusC_agg (st : CompoundSt) (s : NixlStatus) (st2 : CompoundSt)
    (k : Nat) (hpoll : pollStatusC st = (s, st2, k))
    (hterm : s ≠ NixlStatus.inProg) :
    st2.aggregate ≠ IoErr.eInTransfer ∧ getCompStatus st2.aggregate = s := by
  by_cases hagg : st.aggregate = IoErr.eInTransfer
  · rw [pollStatusC] at hpoll
    simp only [hagg, ne_eq, not_true_eq_false, if_false, ite_false] at hpoll
    by_cases h1 : (loop1 st.children).1 = true
    · simp [h1] at hpoll
      exact absurd hpoll.1.symm hterm
    · simp only [Bool.not_eq_true] at h1
      simp only [h1, Bool.false_eq_true, if_false, ite_false] at hpoll
      cases hfind : (loop2 st.children).1 with
      | none =>
        rw [hfind] at hpoll
        have hs : NixlStatus.success = s := congrArg Prod.fst hpoll
        have hst2 : (⟨IoErr.eOk, st.children⟩ : CompoundSt) = st2 :=
          congrArg (fun p => p.2.1) hpoll
        subst hst2
        exact ⟨by simp, hs⟩
      | some c =>
        rw [hfind] at hpoll
        have hs : getCompStatus c = s := congrArg Prod.fst hpoll
        have hst2 : (⟨c, st.children⟩ : CompoundSt) = st2 :=
          congrArg (fun p => p.2.1) hpoll
        have hmem : c ∈ st.children := by
          rw [loop2_fst] at hfind
          exact List.mem_of_find?_eq_some hfind
        have hnp : getCompStatus c ≠ NixlStatus.inProg := by
          rw [loop1_fst] at h1
          have h2 := List.any_eq_false.mp h1 c hmem
          simpa using h2
        subst hst2
        exact ⟨notInTransfer_of_status_ne_inProg c hnp, hs⟩
  · rw [pollStatusC_resolved st hagg] at hpoll
    have hs : getCompStatus st.aggregate = s := congrArg Prod.fst hpoll
    have hst2 : st = st2 := congrArg (fun p => p.2.1) hpoll
    subst hst2
    exact ⟨hagg, hs⟩

/-- C4: for a compound node that has not yet resolved (cached aggregate
still `E_IN_TRANSFER`), `pollStatus` returns `NIXL_IN_PROG` whenever at
least one child is still in progress; once every child is terminal, the
result is the status of the first child in index order whose status is not
success, and success when all children succeeded. -/
theorem C4_compound_poll_aggregation (st : CompoundSt)
    (hagg : st.aggregate = IoErr.eInTransfer) :
    ((st.children.any fun c => getCompStatus c == NixlStatus.inProg) = true →
       (pollStatusC st).1 = NixlStatus.inProg)
    ∧ ((st.children.all fun c => getCompStatus c != NixlStatus.inProg) = true →
       (pollStatusC st).1 =
         match st.children.find? (fun c => getCompStatus c != NixlStatus.success) with
         | some c => getCompStatus c
         | none => NixlStatus.success) := by
  constructor
  · intro hany
    rw [pollStatusC]
    simp only [hagg, ne_eq, not_true_eq_false, if_false, ite_false]
    rw [show (loop1 st.children).1 = true by rw [loop1_fst]; exact hany]
    simp
  · intro hall
    have hany : (st.children.any fun c => getCompStatus c == NixlStatus.inProg)
        = false := by
      rw [List.any_eq_false]
      intro c hc
      have := List.all_eq_true.mp hall c hc
      simpa using this
    rw [pollStatusC]
    simp only [hagg, ne_eq, not_true_eq_false, if_false, ite_false]
    rw [show (loop1 st.children).1 = false by rw [loop1_fst]; exact hany]
    simp only [Bool.false_eq_true, if_false, ite_false]
    rw [loop2_fst]
    cases hfind : st.children.find? (fun c => getCompStatus c != NixlStatus.success)
      <;> simp [hfind]

/-- C4 witness: with cached aggregate in transfer and children
`[E_OK, E_INVAL_PARAMS]` (all terminal, second failed), `pollStatus`
resolves to `NIXL_ERR_INVALID_PARAM`. -/
theorem C4_compound_poll_aggregation_witness :
    (pollStatusC ⟨IoErr.eInTransfer, [IoErr.eOk, IoErr.eInvalParams]⟩).1
      = NixlStatus.errInvalidParam := by
  have h := C4_compound_poll_aggregation
    ⟨IoErr.eInTransfer, [IoErr.eOk, IoErr.eInvalParams]⟩ rfl
  have := h.2 (by decide)
  simpa using this

/-- C8: once a compound `pollStatus` has returned a terminal
(non-in-progress) status, every subsequent poll short-circuits to the same
cached status, with the state unchanged and zero child polls. -/
theorem C8_compound_poll_idempotent (st : CompoundSt) (s : NixlStatus)
    (st2 : CompoundSt) (k : Nat) (hpoll : pollStatusC st = (s, st2, k))
    (hterm : s ≠ NixlStatus.inProg) :
    pollStatusC st2 = (s, st2, 0) := by
  obtain ⟨hne, hs⟩ := pollStatusC_agg st s st2 k hpoll hterm
  rw [pollStatusC_resolved st2 hne, hs]

/-- C8 witness: a compound with children `[E_OK, E_OTHER 5]` resolves to
`NIXL_ERR_BACKEND`, and the next poll returns the same status from the
cache with zero child polls. -/
theorem C8_compound_poll_idempotent_witness :
    pollStatusC ⟨IoErr.eOther 5, [IoErr.eOk, IoErr.eOther 5]⟩
      = (NixlStatus.errBackend, ⟨IoErr.eOther 5, [IoErr.eOk, IoErr.eOther 5]⟩, 0) :=
  C8_compound_poll_idempotent ⟨IoErr.eInTransfer, [IoErr.eOk, IoErr.eOther 5]⟩
    NixlStatus.errBackend ⟨IoErr.eOther 5, [IoErr.eOk, IoErr.eOther 5]⟩ 4
    (by decide) (by decide)

/-- C9: in the revised engine, `prepXfer`'s final trace log reads
`opt_args->customParam` unconditionally.  With the declared default
`opt_args = nullptr`, a valid single-range input that passes every check
and classifies successfully still ends in a null-pointer dereference
(modelled as `ub nullOpt`), while the identical input with a non-null
`opt_args` returns a built handle — so `prepXfer` is not total over null
options. -/
theorem C9_null_opt_args_dereference :
    prepXfer .read ⟨.dram, [⟨7, 4096, 512⟩]⟩ ⟨.blk, [⟨7, 0, 512⟩]⟩ none
        (fun d => if d == 7 then some 3 else none)
      = (.ub .nullOpt, [])
    ∧ prepXfer .read ⟨.dram, [⟨7, 4096, 512⟩]⟩ ⟨.blk, [⟨7, 0, 512⟩]⟩ (some [])
        (fun d => if d == 7 then some 3 else none)
      = (.ok (.single1 .read 3 ⟨7, 4096, 512⟩ ⟨7, 0, 512⟩), []) := by
  exact ⟨rfl, rfl⟩

/-- C10: on a native-disconnect failure for a device with refcount 1, the
revised `bdevClose` returns the mapped error with the device table
unchanged (the entry is restored to refcount 1 so a later close can
retry), whereas the older `_close` returns the same error but leaves the
entry present with its refcount already decremented to 0. -/
theorem C10_close_disconnect_failure (tbl : Nat → Option Int) (d : Nat)
    (rv : ConnectRv) (h1 : tbl d = some 1) (h2 : rv ≠ ConnectRv.cOk) :
    bdevClose rv tbl d = (conErrConv rv, tbl)
    ∧ (oldClose rv tbl d).1 = conErrConv rv
    ∧ (oldClose rv tbl d).2 d = some 0 := by
  have hfun : (fun x => if x = d then some ((1 : Int) - 1 + 1) else tbl x) = tbl := by
    funext x
    by_cases hx : x = d
    · subst hx
      simpa using h1.symm
    · simp [hx]
  refine ⟨?_, ?_, ?_⟩
  · rw [bdevClose, h1]
    simp only [show ¬((1 : Int) - 1 > 0) by norm_num, if_false, ite_false, h2,
      ne_eq, not_false_iff, if_true, ite_true]
    rw [hfun]
  · rw [oldClose, h1]
    simp [h2]
  · rw [oldClose, h1]
    simp [h2]

/-- C10 witness: table with device 7 at refcount 1, disconnect failing with
`C_NO_DEVICE`. -/
theorem C10_close_disconnect_failure_witness :
    bdevClose ConnectRv.cNoDevice (fun x => if x = 7 then some 1 else none) 7
      = (conErrConv ConnectRv.cNoDevice, fun x => if x = 7 then some 1 else none)
    ∧ (oldClose ConnectRv.cNoDevice (fun x => if x = 7 then some 1 else none) 7).1
      = conErrConv ConnectRv.cNoDevice
    ∧ (oldClose ConnectRv.cNoDevice (fun x => if x = 7 then some 1 else none) 7).2 7
      = some 0 :=
  C10_close_disconnect_failure (fun x => if x = 7 then some 1 else none) 7
    ConnectRv.cNoDevice (by simp) (by simp)

/-- C6: with exactly one remote descriptor (hence one local descriptor),
`prepXfer` takes the single-range branch: the handle is built by `set1Buf`
directly from descriptor index 0 and the trace of writes into caller
memory is empty, regardless of the contents of the options string. -/
theorem C6_single_range_strategy (op : XferOp) (l0 r0 : Desc)
    (s : List Char) (gid : Int) (bdevs : Nat → Option Int)
    (hgid : bdevs r0.devId = some gid) :
    prepXfer op ⟨.dram, [l0]⟩ ⟨.blk, [r0]⟩ (some s) bdevs =
      (.ok (.single1 op gid l0 r0), []) := by
  simp [prepXfer, getGidOfBDev, hgid, finishLog]

/-- C6 witness: one descriptor pair on device 7 with the scatter-gather
flag set; the single-range strategy still wins and no map is written. -/
theorem C6_single_range_strategy_witness :
    prepXfer .read ⟨.dram, [⟨7, 4096, 512⟩]⟩ ⟨.blk, [⟨7, 0, 512⟩]⟩
        (some sglToken) (fun d => if d == 7 then some 3 else none)
      = (.ok (.single1 .read 3 ⟨7, 4096, 512⟩ ⟨7, 0, 512⟩), []) :=
  C6_single_range_strategy .read ⟨7, 4096, 512⟩ ⟨7, 0, 512⟩ sglToken 3
    (fun d => if d == 7 then some 3 else none) (by rfl)

/-- C1 counterexample: two remote descriptors on device 7, scatter-gather
flag set, `localList[0].len = 0` so the required map size exceeds the
buffer.  `prepXfer` does return `NIXL_ERR_INVALID_PARAM`, but the write
trace into `localList[0]`'s memory is not empty: the `n_entries` header was
stored before the bounds check, refuting the claim's "no bytes have been
written". -/
theorem C1_counterexample_header_written :
    (prepXfer .write ⟨.dram, [⟨7, 1000, 0⟩, ⟨7, 2000, 16⟩]⟩
        ⟨.blk, [⟨7, 0, 16⟩, ⟨7, 64, 16⟩]⟩ (some sglToken)
        (fun d => if d == 7 then some 3 else none))
      = (.err .errInvalidParam, [SgWrite.header 1])
    ∧ ([SgWrite.header 1] : List SgWrite) ≠ [] := by
  exact ⟨rfl, by decide⟩

/-- C1 amended: under the claim's hypotheses (more than one remote
descriptor, all on one device, flag set, required map size exceeding
`localList[0].length`), `prepXfer` returns `NIXL_ERR_INVALID_PARAM` and the
only bytes written into `localList[0]`'s memory are the map's `n_entries`
header (set to `count - 1` before the bounds check); no map entry is
written. -/
theorem C1_amended_bounds_check_after_header (op : XferOp) (l0 : Desc)
    (lrest : List Desc) (r0 r1 : Desc) (rrest : List Desc) (s : List Char)
    (bdevs : Nat → Option Int) (gid : Int)
    (hgid : bdevs r0.devId = some gid)
    (hlen : lrest.length = rrest.length + 1)
    (hdev : ((r1 :: rrest).all fun d => d.devId == r0.devId) = true)
    (hflag : listHasSub sglToken s = true)
    (hsize : mySize (rrest.length + 1) > l0.len) :
    prepXfer op ⟨.dram, l0 :: lrest⟩ ⟨.blk, r0 :: r1 :: rrest⟩ (some s) bdevs
      = (.err .errInvalidParam, [SgWrite.header (rrest.length + 1)]) := by
  simp [prepXfer, setBufs, hasSglFlag, getGidOfBDev, hgid, hdev, hflag,
    hlen, hsize]

/-- C1 amended witness: the counterexample input, via the amended
theorem. -/
theorem C1_amended_bounds_check_after_header_witness :
    prepXfer .write ⟨.dram, [⟨7, 1000, 0⟩, ⟨7, 2000, 16⟩]⟩
        ⟨.blk, [⟨7, 0, 16⟩, ⟨7, 64, 16⟩]⟩ (some sglToken)
        (fun d => if d == 7 then some 3 else none)
      = (.err .errInvalidParam, [SgWrite.header 1]) := by
  have h := C1_amended_bounds_check_after_header .write ⟨7, 1000, 0⟩
    [⟨7, 2000, 16⟩] ⟨7, 0, 16⟩ ⟨7, 64, 16⟩ [] sglToken
    (fun d => if d == 7 then some 3 else none) 3 (by rfl) (by decide)
    (by decide) (by rfl) (by decide)
  exact h

/-- C7: a multi-range request on a single device with the `-sgl` substring
present in the options string that passes the bounds check produces a
scatter-gather map with `n_entries = N - 1` whose entry `i - 1` holds
`localList[i].addr`, `localList[i].len` and `remoteList[i].addr` for
`i = 1..N-1` (positionally: the entries are the zip of the two lists'
tails), and the write trace is exactly the header followed by those
entries; the entry list length equals `N - 1`. -/
theorem C7_sgl_map_content (op : XferOp) (l0 : Desc) (lrest : List Desc)
    (r0 r1 : Desc) (rrest : List Desc) (s : List Char)
    (bdevs : Nat → Option Int) (gid : Int)
    (hgid : bdevs r0.devId = some gid)
    (hlen : lrest.length = rrest.length + 1)
    (hdev : ((r1 :: rrest).all fun d => d.devId == r0.devId) = true)
    (hflag : listHasSub sglToken s = true)
    (hsize : ¬ mySize (rrest.length + 1) > l0.len) :
    prepXfer op ⟨.dram, l0 :: lrest⟩ ⟨.blk, r0 :: r1 :: rrest⟩ (some s) bdevs
      = (.ok (.singleSgl op gid
          ⟨rrest.length + 1,
           (lrest.zip (r1 :: rrest)).map
             fun p => SgEntry.mk p.1.addr p.1.len p.2.addr⟩),
         SgWrite.header (rrest.length + 1) ::
           entryWrites ((lrest.zip (r1 :: rrest)).map
             fun p => SgEntry.mk p.1.addr p.1.len p.2.addr))
    ∧ ((lrest.zip (r1 :: rrest)).map
         fun p => SgEntry.mk p.1.addr p.1.len p.2.addr).length
        = rrest.length + 1 := by
  constructor
  · simp [prepXfer, setBufs, hasSglFlag, getGidOfBDev, hgid, hdev, hflag,
      hlen, hsize, finishLog]
  · simp [List.length_zip, hlen]

/-- C7 witness: 5 remote descriptors on device 7 with the flag set produce
a map with `entryCount = 4` and the four entries taken from indices 1..4. -/
theorem C7_sgl_map_content_witness :
    prepXfer .write
        ⟨.dram, [⟨7, 1000, 4096⟩, ⟨7, 2000, 16⟩, ⟨7, 3000, 16⟩,
                 ⟨7, 4000, 16⟩, ⟨7, 5000, 16⟩]⟩
        ⟨.blk, [⟨7, 0, 16⟩, ⟨7, 64, 16⟩, ⟨7, 128, 16⟩,
                ⟨7, 192, 16⟩, ⟨7, 256, 16⟩]⟩
        (some sglToken) (fun d => if d == 7 then some 3 else none)
      = (.ok (.singleSgl .write 3
          ⟨4, [⟨2000, 16, 64⟩, ⟨3000, 16, 128⟩,
               ⟨4000, 16, 192⟩, ⟨5000, 16, 256⟩]⟩),
         [.header 4, .entry 0 ⟨2000, 16, 64⟩, .entry 1 ⟨3000, 16, 128⟩,
          .entry 2 ⟨4000, 16, 192⟩, .entry 3 ⟨5000, 16, 256⟩]) := by
  have h := C7_sgl_map_content .write ⟨7, 1000, 4096⟩
    [⟨7, 2000, 16⟩, ⟨7, 3000, 16⟩, ⟨7, 4000, 16⟩, ⟨7, 5000, 16⟩]
    ⟨7, 0, 16⟩ ⟨7, 64, 16⟩ [⟨7, 128, 16⟩, ⟨7, 192, 16⟩, ⟨7, 256, 16⟩]
    sglToken (fun d => if d == 7 then some 3 else none) 3 (by rfl)
    (by decide) (by decide) (by rfl) (by decide)
  rw [h.1]
  rfl

/-- C2 counterexample: a well-shaped request (DRAM local, BLK remote, one
pair each) whose remote device id 9 has no entry in the device table.
`prepXfer` does not return `NIXL_ERR_NOT_FOUND`; resolving the id
dereferences the end iterator of the device hash — undefined behaviour. -/
theorem C2_counterexample_missing_dev_not_notfound :
    (prepXfer .read ⟨.dram, [⟨7, 4096, 512⟩]⟩ ⟨.blk, [⟨9, 0, 512⟩]⟩
        (some []) (fun _ => none)).1 ≠ .err .errNotFound
    ∧ (prepXfer .read ⟨.dram, [⟨7, 4096, 512⟩]⟩ ⟨.blk, [⟨9, 0, 512⟩]⟩
        (some []) (fun _ => none)).1 = .ub .missingDev := by
  decide

/-- C2 amended: `prepXfer` performs no presence check on device ids: for
every request passing the shape checks whose first remote device id is
absent from the table, `getGidOfBDev` dereferences the end iterator of
`bdevs_` — undefined behaviour, not a `NotFound` error.  `NotFound` for a
missing device is produced only at registration time, where the native
`C_NO_DEVICE` connect failure maps to `NIXL_ERR_NOT_FOUND`. -/
theorem C2_amended_missing_dev_is_ub (op : XferOp) (lds : List Desc)
    (r0 : Desc) (rrest : List Desc) (optA : Option (List Char))
    (bdevs : Nat → Option Int)
    (hlen : lds.length = rrest.length + 1)
    (hmiss : bdevs r0.devId = none) :
    prepXfer op ⟨.dram, lds⟩ ⟨.blk, r0 :: rrest⟩ optA bdevs
      = (.ub .missingDev, [])
    ∧ conErrConv .cNoDevice = .errNotFound := by
  refine ⟨?_, rfl⟩
  simp [prepXfer, getGidOfBDev, hmiss, hlen]

/-- C2 amended witness: the counterexample input, via the amended
theorem. -/
theorem C2_amended_missing_dev_is_ub_witness :
    prepXfer .read ⟨.dram, [⟨7, 4096, 512⟩]⟩ ⟨.blk, [⟨9, 0, 512⟩]⟩
        (some []) (fun _ => none)
      = (.ub .missingDev, [])
    ∧ conErrConv .cNoDevice = .errNotFound :=
  C2_amended_missing_dev_is_ub .read [⟨7, 4096, 512⟩] ⟨9, 0, 512⟩ []
    (some []) (fun _ => none) (by decide) (by rfl)

/-- C3 counterexample: two empty lists with the correct memory classes
violate "both counts are greater than zero", yet `prepXfer` does not
return `NIXL_ERR_INVALID_PARAM`: the count checks pass (0 = 0) and the
subsequent `remote[0]` access is out of bounds — undefined behaviour. -/
theorem C3_counterexample_zero_count_not_rejected :
    (prepXfer .read ⟨.dram, []⟩ ⟨.blk, []⟩ (some []) (fun _ => none)).1
      ≠ .err .errInvalidParam
    ∧ (prepXfer .read ⟨.dram, []⟩ ⟨.blk, []⟩ (some []) (fun _ => none)).1
      = .ub .oobDesc := by
  decide

/-- C3 amended: `prepXfer` validates that the local list's class is DRAM,
the remote list's class is BLK, and that the descriptor counts are equal,
returning `NIXL_ERR_INVALID_PARAM` on each violation; it does not validate
positivity of the counts — equal zero-count lists pass validation and lead
to an out-of-bounds descriptor access (undefined behaviour). -/
theorem C3_amended_validations :
    (∀ (op : XferOp) (t : MemType) (lds : List Desc) (rmt : Dlist)
       (optA : Option (List Char)) (bdevs : Nat → Option Int),
       t ≠ MemType.dram →
       prepXfer op ⟨t, lds⟩ rmt optA bdevs = (.err .errInvalidParam, []))
    ∧ (∀ (op : XferOp) (lds : List Desc) (t : MemType) (rds : List Desc)
         (optA : Option (List Char)) (bdevs : Nat → Option Int),
         t ≠ MemType.blk →
         prepXfer op ⟨.dram, lds⟩ ⟨t, rds⟩ optA bdevs
           = (.err .errInvalidParam, []))
    ∧ (∀ (op : XferOp) (lds rds : List Desc) (optA : Option (List Char))
         (bdevs : Nat → Option Int),
         lds.length ≠ rds.length →
         prepXfer op ⟨.dram, lds⟩ ⟨.blk, rds⟩ optA bdevs
           = (.err .errInvalidParam, []))
    ∧ (∀ (op : XferOp) (optA : Option (List Char))
         (bdevs : Nat → Option Int),
         prepXfer op ⟨.dram, []⟩ ⟨.blk, []⟩ optA bdevs = (.ub .oobDesc, [])) := by
  refine ⟨?_, ?_, ?_, ?_⟩
  · intro op t lds rmt optA bdevs h
    simp [prepXfer, h]
  · intro op lds t rds optA bdevs h
    simp [prepXfer, h]
  · intro op lds rds optA bdevs h
    simp [prepXfer, h]
  · intro op optA bdevs
    simp [prepXfer]

/-- C3 amended witness: each validated precondition and the unvalidated
zero-count case at a concrete input. -/
theorem C3_amended_validations_witness :
    prepXfer .read ⟨.blk, []⟩ ⟨.blk, []⟩ none (fun _ => none)
      = (.err .errInvalidParam, [])
    ∧ prepXfer .read ⟨.dram, []⟩ ⟨.dram, []⟩ none (fun _ => none)
      = (.err .errInvalidParam, [])
    ∧ prepXfer .read ⟨.dram, [⟨1, 2, 3⟩]⟩ ⟨.blk, []⟩ none (fun _ => none)
      = (.err .errInvalidParam, [])
    ∧ prepXfer .read ⟨.dram, []⟩ ⟨.blk, []⟩ none (fun _ => none)
      = (.ub .oobDesc, []) :=
  ⟨C3_amended_validations.1 .read .blk [] ⟨.blk, []⟩ none (fun _ => none)
     (by decide),
   C3_amended_validations.2.1 .read [] .dram [] none (fun _ => none)
     (by decide),
   C3_amended_validations.2.2.1 .read [⟨1, 2, 3⟩] [] none (fun _ => none)
     (by decide),
   C3_amended_validations.2.2.2 .read none (fun _ => none)⟩

theorem buildKids_total (op : XferOp) (bdevs : Nat → Option Int)
    (g : Nat → Int) (hg : ∀ n, bdevs n = some (g n)) :
    ∀ ps : List (Desc × Desc),
      buildKids op bdevs ps
        = .ok (ps.map fun p => Child.mk op (g p.2.devId) p.1 p.2) := by
  intro ps
  induction ps with
  | nil => rfl
  | cons p rest ih => simp [buildKids, getGidOfBDev, hg, ih]

/-- C5: for a descriptor-list pair spanning at least two distinct device
ids (every referenced id resolvable), the classifier builds a compound
node whose children are, in order, one per descriptor pair from index
`i0` on, where `i0 = 1` exactly when the scatter-gather flag was supplied
and `0` otherwise; each child pairs `localList[i]` with `remoteList[i]`
and carries the gid resolved from that pair's remote device id, and the
number of children is `remoteList.count - i0`. -/
theorem C5_compound_children (op : XferOp) (l0 : Desc) (lrest : List Desc)
    (r0 r1 : Desc) (rrest : List Desc) (s : List Char)
    (bdevs : Nat → Option Int) (g : Nat → Int) (i0 : Nat)
    (hg : ∀ n, bdevs n = some (g n))
    (hlen : lrest.length = rrest.length + 1)
    (hdev : ((r1 :: rrest).all fun d => d.devId == r0.devId) = false)
    (hi0 : i0 = if listHasSub sglToken s then 1 else 0) :
    prepXfer op ⟨.dram, l0 :: lrest⟩ ⟨.blk, r0 :: r1 :: rrest⟩ (some s) bdevs
      = (.ok (.compound
          ((((l0 :: lrest).drop i0).zip ((r0 :: r1 :: rrest).drop i0)).map
            fun p => Child.mk op (g p.2.devId) p.1 p.2)), [])
    ∧ ((((l0 :: lrest).drop i0).zip ((r0 :: r1 :: rrest).drop i0)).map
         fun p => Child.mk op (g p.2.devId) p.1 p.2).length
        = (r0 :: r1 :: rrest).length - i0 := by
  subst hi0
  constructor
  · simp [prepXfer, hasSglFlag, getGidOfBDev, hg, hdev, hlen, finishLog,
      buildKids_total op bdevs g hg]
  · by_cases hf : listHasSub sglToken s = true
    · simp [hf, List.length_zip, hlen]
    · simp only [Bool.not_eq_true] at hf
      simp [hf, List.length_zip, hlen]

/-- C5 witness: three descriptor pairs on devices 7, 8, 7 with the flag
set; the compound node has `3 - 1 = 2` children, for pairs 1 and 2, with
gids resolved from device ids 8 and 7. -/
theorem C5_compound_children_witness :
    prepXfer .read
        ⟨.dram, [⟨7, 1000, 16⟩, ⟨7, 2000, 16⟩, ⟨7, 3000, 16⟩]⟩
        ⟨.blk, [⟨7, 0, 16⟩, ⟨8, 64, 16⟩, ⟨7, 128, 16⟩]⟩
        (some sglToken) (fun d => some (Int.ofNat d))
      = (.ok (.compound
          [⟨.read, 8, ⟨7, 2000, 16⟩, ⟨8, 64, 16⟩⟩,
           ⟨.read, 7, ⟨7, 3000, 16⟩, ⟨7, 128, 16⟩⟩]), []) := by
  have h := C5_compound_children .read ⟨7, 1000, 16⟩
    [⟨7, 2000, 16⟩, ⟨7, 3000, 16⟩] ⟨7, 0, 16⟩ ⟨8, 64, 16⟩ [⟨7, 128, 16⟩]
    sglToken (fun d => some (Int.ofNat d)) (fun n => Int.ofNat n) 1
    (fun n => rfl) (by decide) (by decide) (by rfl)
  rw [h.1]
  rfl

end Gusli
